import Mathlib

/-!
Verification of the libgmsys memory-management core: a shallow embedding of
the buddy page allocator (gmlibc/buddy.hpp), the dl-malloc fine allocator
(gmlibc/dlmalloc.hpp), the slob allocator (gmlibc/slob.hpp) and the GBA
parameterization (src/gbamm.cpp), instantiated with the GBA constants
(pageSizeShift = 11, maxPageOrder = 6, fastbinMaxOrder = 6,
smallbinMaxOrder = 9, chunkSizeType = unsigned short, pfnType = unsigned
char, addressType = int, objectNumberType = unsigned short).
-/

namespace Buddy

/-- buddyInfo::maxPageOrder of the GBA instantiation. -/
def maxPageOrder : Nat := 6

/-- buddyInfo::bitmapOrderOffset of the GBA instantiation. -/
def bitmapOrderOffset : List Nat := [0, 128, 64, 32, 16, 8]

/-- Bit position of the bitmap entry of block `pfn` at `order`
(indexFrom: position = bitmapOrderOffset[order] + (pfn >> order), then
split into byte index = position >> 3 and offset = position & 7; the byte
array with that split is the plain bit set at `position`). -/
def bitPos (pfn order : Nat) : Nat := bitmapOrderOffset.getD order 0 + (pfn >>> order)

/-- State of GmOsPageAllocatorBuddy: low and high break points, the
per-order free lists (each a list of pfns, most recently linked first,
mirroring the intrusive list heads) and the bitmap as a bit set. -/
structure BuddyState where
  lpbrk : Nat
  hpbrk : Nat
  freeLists : List (List Nat)
  bitmap : Nat
deriving DecidableEq

/-- The constructed state: lpbrk = hpbrk = 0, all free lists null, bitmap zero. -/
def initState : BuddyState := ⟨0, 0, [[], [], [], [], [], []], 0⟩

/-- bitmapSet: bitmap[index] |= (1 << offset). -/
def bitmapSet (pfn order : Nat) (s : BuddyState) : BuddyState :=
  {s with bitmap := s.bitmap ||| (1 <<< bitPos pfn order)}

/-- bitmapClear: bitmap[index] = (bitmap[index] | bit) ^ bit. -/
def bitmapClear (pfn order : Nat) (s : BuddyState) : BuddyState :=
  {s with bitmap := (s.bitmap ||| (1 <<< bitPos pfn order)) ^^^ (1 <<< bitPos pfn order)}

/-- bitmapHas: (bitmap[index] & (1 << offset)) != 0. -/
def bitmapHas (pfn order : Nat) (s : BuddyState) : Bool :=
  s.bitmap.testBit (bitPos pfn order)

/-- linkPage: push the page at the head of the free list of `order`. -/
def linkPage (order pfn : Nat) (s : BuddyState) : BuddyState :=
  {s with freeLists := s.freeLists.set order (pfn :: s.freeLists.getD order [])}

/-- unlinkPage: remove the page from the free list of `order` (the C code
unlinks through the intrusive back pointer; all call sites first check the
bitmap bit of the page at this order). -/
def unlinkPage (order pfn : Nat) (s : BuddyState) : BuddyState :=
  {s with freeLists := s.freeLists.set order ((s.freeLists.getD order []).erase pfn)}

/-- One scan of the inner for loop of shrinkHighPage: the first order with
order < maxPageOrder, 2^order <= hpbrk and the bit of hpbrk - 2^order set. -/
def shrinkScan (s : BuddyState) : Nat → Nat → Option (Nat × Nat)
  | _, 0 => none
  | order, fuel + 1 =>
    if order < maxPageOrder ∧ (1 <<< order) ≤ s.hpbrk then
      if bitmapHas (s.hpbrk - (1 <<< order)) order s then
        some (order, s.hpbrk - (1 <<< order))
      else shrinkScan s (order + 1) fuel
    else none

/-- Replace the high break point of a state. -/
def setHpbrk (v : Nat) (s : BuddyState) : BuddyState := ⟨s.lpbrk, v, s.freeLists, s.bitmap⟩

/-- One iteration of the do/while body of shrinkHighPage: unlink the found page,
clear its bit, and pull hpbrk down to its pfn. -/
def shrinkStep (s : BuddyState) : Option BuddyState :=
  match shrinkScan s 0 maxPageOrder with
  | none => none
  | some (order, pfn) =>
    some (setHpbrk pfn (bitmapClear pfn order (unlinkPage order pfn s)))

/-- The outer do/while of shrinkHighPage, driven by fuel; each step lowers hpbrk
by at least one page, so fuel = hpbrk iterations always reach the fixpoint. -/
def shrinkAux : Nat → BuddyState → BuddyState
  | 0, s => s
  | fuel + 1, s =>
    match shrinkStep s with
    | none => s
    | some s1 => shrinkAux fuel s1

/-- shrinkHighPage. -/
def shrinkHighPage (s : BuddyState) : BuddyState := shrinkAux s.hpbrk s

/-- The iterative buddy-merge loop of freeHighPage: while
order < maxPageOrder - 1 and the bit of the buddy is set, unlink the buddy, clear
its bit, keep the lower pfn and go one order up. -/
def mergeLoop : Nat → Nat → Nat → BuddyState → Nat × Nat × BuddyState
  | 0, order, pfn, s => (order, pfn, s)
  | fuel + 1, order, pfn, s =>
    if order < maxPageOrder - 1 then
      if bitmapHas (pfn ^^^ (1 <<< order)) order s then
        mergeLoop fuel (order + 1) (min pfn (pfn ^^^ (1 <<< order)))
          (bitmapClear (pfn ^^^ (1 <<< order)) order
            (unlinkPage order (pfn ^^^ (1 <<< order)) s))
      else (order, pfn, s)
    else (order, pfn, s)

/-- The tail of freeHighPage after merging: either pull hpbrk down (the
merged block ends exactly at hpbrk) and shrink (deftHighBreakShrink is true
on GBA), or set the bit and link the merged block at its final order. -/
def freeHighMerged : Nat × Nat × BuddyState → BuddyState
  | (order1, pfnCur, s1) =>
    if pfnCur + (1 <<< order1) = s1.hpbrk then
      shrinkHighPage (setHpbrk pfnCur s1)
    else
      linkPage order1 pfnCur (bitmapSet pfnCur order1 s1)

/-- freeHighPage: null guard, buddy merging, then freeHighMerged. -/
def freeHighPage (page : Option Nat) (order : Nat) (s : BuddyState) : BuddyState :=
  match page with
  | none => s
  | some pfn0 => freeHighMerged (mergeLoop (maxPageOrder - 1) order pfn0 s)

/-- The scan loop of the else branch of allocateHighPage, exactly as written in
the source: for (availableOrder = order + 1;
availableOrder < maxPageOrder && freePageList[order] == null;
++availableOrder);  Note the loop condition reads freePageList[order], not
freePageList[availableOrder]. -/
def scanAvailable (s : BuddyState) (order : Nat) : Nat → Nat → Nat
  | 0, a => a
  | fuel + 1, a =>
    if a < maxPageOrder ∧ s.freeLists.getD order [] = [] then
      scanAvailable s order fuel (a + 1)
    else a

/-- The do/while split loop in the found-a-higher-order branch
of allocateHighPage: decrement availableOrder, put the upper half at the decremented
order, until availableOrder = order. -/
def splitDownLoop : Nat → Nat → Nat → Nat → BuddyState → BuddyState
  | 0, _, _, _, s => s
  | fuel + 1, a, order, pfnVictim, s =>
    if a - 1 = order then
      linkPage (a - 1) (pfnVictim + (1 <<< (a - 1)))
        (bitmapSet (pfnVictim + (1 <<< (a - 1))) (a - 1) s)
    else
      splitDownLoop fuel (a - 1) order pfnVictim
        (linkPage (a - 1) (pfnVictim + (1 <<< (a - 1)))
          (bitmapSet (pfnVictim + (1 <<< (a - 1))) (a - 1) s))

/-- The gap-filling loop of the grow branch of allocateHighPage: for orderSplit
from order down to 1, if pfnSplit >= hpbrk + 2^(orderSplit-1), move pfnSplit
down by that much and link the block at orderSplit - 1. -/
def fillGapLoop : Nat → Nat → Nat → Nat → BuddyState → BuddyState
  | 0, _, _, _, s => s
  | fuel + 1, orderSplit, pfnSplit, hpbrk0, s =>
    if 0 < orderSplit then
      if pfnSplit < hpbrk0 + (1 <<< (orderSplit - 1)) then
        fillGapLoop fuel (orderSplit - 1) pfnSplit hpbrk0 s
      else
        fillGapLoop fuel (orderSplit - 1) (pfnSplit - (1 <<< (orderSplit - 1))) hpbrk0
          (linkPage (orderSplit - 1) (pfnSplit - (1 <<< (orderSplit - 1)))
            (bitmapSet (pfnSplit - (1 <<< (orderSplit - 1))) (orderSplit - 1) s))
    else s

/-- allocateHighPage with totalPageFrame() = N.  Faithful to the source,
including the scan loop testing freePageList[order]: pop the head when the
list at `order` is non-empty; otherwise scan, and either split a victim
down (when the scan stops below maxPageOrder) or grow hpbrk after the
collision check totalPageFrame() < lpbrk + newHpbrk. -/
def allocateHighPage (N order : Nat) (s : BuddyState) : Option Nat × BuddyState :=
  if maxPageOrder ≤ order then (none, s)
  else
    match s.freeLists.getD order [] with
    | pfn :: _ =>
      (some pfn, unlinkPage order pfn (bitmapClear pfn order s))
    | [] =>
      if scanAvailable s order maxPageOrder (order + 1) < maxPageOrder then
        match s.freeLists.getD (scanAvailable s order maxPageOrder (order + 1)) [] with
        | [] => (none, s)
        | pfnVictim :: _ =>
          (some pfnVictim,
            splitDownLoop maxPageOrder (scanAvailable s order maxPageOrder (order + 1)) order
              pfnVictim
              (unlinkPage (scanAvailable s order maxPageOrder (order + 1)) pfnVictim
                (bitmapClear pfnVictim (scanAvailable s order maxPageOrder (order + 1)) s)))
      else
        if N < s.lpbrk + (((s.hpbrk + ((1 <<< order) - 1)) >>> order) <<< order) + (1 <<< order)
        then (none, s)
        else
          (some (((s.hpbrk + ((1 <<< order) - 1)) >>> order) <<< order),
            setHpbrk ((((s.hpbrk + ((1 <<< order) - 1)) >>> order) <<< order) + (1 <<< order))
              (fillGapLoop order order (((s.hpbrk + ((1 <<< order) - 1)) >>> order) <<< order)
                s.hpbrk s))

/-- allocateLowPage with totalPageFrame() = N: the source stores
newLpbrk = lpbrk + pageCount into a pfnType (unsigned char), truncating the
sum mod 256, then fails when totalPageFrame() < newLpbrk + hpbrk and
otherwise sets lpbrk to the truncated sum. -/
def allocateLowPage (N pageCount : Nat) (s : BuddyState) : Bool × BuddyState :=
  if N < (s.lpbrk + pageCount) % 256 + s.hpbrk then (false, s)
  else (true, {s with lpbrk := (s.lpbrk + pageCount) % 256})

/-- freeLowPage: lpbrk = lpbrk - numFree when lpbrk >= numFree, else 0
(exactly Nat subtraction). -/
def freeLowPage (numFree : Nat) (s : BuddyState) : BuddyState :=
  {s with lpbrk := s.lpbrk - numFree}

/-- The no low/high collision invariant. -/
def brkInv (N : Nat) (s : BuddyState) : Prop := s.lpbrk + s.hpbrk ≤ N

end Buddy

namespace Dl

/-- The constant 65536 = 2^16, the modulus of chunkSizeType (unsigned short) arithmetic. -/
def M16 : Nat := 65536

/-- Subtraction as computed into a chunkSizeType: a - b mod 2^16. -/
def sub16 (a b : Nat) : Nat := (a % M16 + (M16 - b % M16)) % M16

/-- GmOsFineChunkDlMalloc::payloadOffset: two chunkSizeType words, 4 bytes. -/
def payloadOffset : Nat := 4

/-- physicalSize(sz) = sz + payloadOffset in chunkSizeType arithmetic. -/
def physSize16 (sz : Nat) : Nat := (sz + payloadOffset) % M16

/-- Size floor alignment (a | 3) ^ 3, i.e. round down to a multiple of 4. -/
def floorAlign4 (a : Nat) : Nat := (a ||| 3) ^^^ 3

/-- sizeof(GmOsChunkNodeSmall): two 4-byte pointers. -/
def sizeofSmallNode : Nat := 8

/-- dlInfo::fastbinMaxOrder on GBA. -/
def fastbinMaxOrder : Nat := 6

/-- dlInfo::smallbinMaxOrder on GBA. -/
def smallbinMaxOrder : Nat := 9

/-- dlInfo::pageSizeShift on GBA. -/
def pageSizeShift : Nat := 11

/-- The page size in bytes. -/
def pageSize : Nat := 1 <<< pageSizeShift

/-- The halving search of the else branch of splitUseChunk: while
physicalSize(remainedSize) > availableSize and remainedSize > 0, halve. -/
def remainedLoop : Nat → Nat → Nat → Nat
  | 0, r, _ => r
  | fuel + 1, r, avail =>
    if avail < physSize16 r ∧ 0 < r then remainedLoop fuel (r >>> 1) avail else r

/-- remainedSize as splitUseChunk computes it: when availableSize >=
physicalSize(2^fastbinMaxOrder) the source subtracts two chunkSizeType words
from the just-initialized remainedSize = 0, which wraps to 65532 in
unsigned short; otherwise the halving search starting at
2^(fastbinMaxOrder-1). -/
def remainedSizeOf (avail : Nat) : Nat :=
  if physSize16 (1 <<< fastbinMaxOrder) ≤ avail then sub16 0 4
  else remainedLoop 8 (1 <<< (fastbinMaxOrder - 1)) avail

/-- splitUseChunk on a chosen chunk of size `chunkSize` for rounded request
`r`: returns (remainedSize stored into the split-off chunk, updated size of
the chunk) when a split happens, none when the chunk is used whole.
The updated size is size(C) - physicalSize(size of the split-off chunk),
all in chunkSizeType arithmetic. -/
def splitUseChunk (chunkSize r : Nat) : Option (Nat × Nat) :=
  if physSize16 sizeofSmallNode ≤ floorAlign4 (sub16 chunkSize r) then
    if 0 < remainedSizeOf (floorAlign4 (sub16 chunkSize r)) then
      some (remainedSizeOf (floorAlign4 (sub16 chunkSize r)),
        sub16 chunkSize
          (physSize16 (floorAlign4 (remainedSizeOf (floorAlign4 (sub16 chunkSize r))))))
    else none
  else none

/-- Request rounding at the head of allocate: at least
sizeof(GmOsChunkNodeSmall), else ((size + 3) | 3) ^ 3 (round up to 4). -/
def roundRequest (r : Nat) : Nat :=
  if r < sizeofSmallNode then sizeofSmallNode else ((r + 3) ||| 3) ^^^ 3

/-- The start-order loop of the fast-bin allocation path: for (fastOrder = 2;
(1 << fastOrder) < sizeof(GmOsChunkNodeSmall) || (1 << fastOrder) > size;
++fastOrder); -/
def fastStartLoop : Nat → Nat → Nat → Nat
  | 0, o, _ => o
  | fuel + 1, o, size =>
    if (1 <<< o) < sizeofSmallNode ∨ size < (1 <<< o) then fastStartLoop fuel (o + 1) size
    else o

/-- The fast order the allocation path starts scanning at. -/
def fastAllocStart (size : Nat) : Nat := fastStartLoop 8 2 size

/-- The bin-choice loop of the fast branch of arrangeChunk: for (fastOrder = 2;
(1 << fastOrder) < sizeof(GmOsChunkNodeSmall) || (1 << (fastOrder+1)) < size;
++fastOrder); -/
def arrangeFastLoop : Nat → Nat → Nat → Nat
  | 0, o, _ => o
  | fuel + 1, o, size =>
    if (1 <<< o) < sizeofSmallNode ∨ (1 <<< (o + 1)) < size then arrangeFastLoop fuel (o + 1) size
    else o

/-- The fast bin arrangeChunk inserts a free chunk of `size` into. -/
def arrangeFastOrder (size : Nat) : Nat := arrangeFastLoop 8 2 size

/-- The upward scan of the fast-bin allocation path: pop the head of the
first non-empty fast bin from the start order on; bins are modelled by the
sizes of their stacked chunks, head first. -/
def fastScan (bins : List (List Nat)) : Nat → Nat → Option Nat
  | 0, _ => none
  | fuel + 1, o =>
    if o < fastbinMaxOrder then
      match bins.getD o [] with
      | c :: _ => some c
      | [] => fastScan bins fuel (o + 1)
    else none

/-- The fast-bin path of allocate for a rounded request `size`: guarded by
size < 2^fastbinMaxOrder; returns the size of the chunk handed to the user,
none when every scanned stack is empty. -/
def fastPath (bins : List (List Nat)) (size : Nat) : Option Nat :=
  if size < (1 <<< fastbinMaxOrder) then fastScan bins fastbinMaxOrder (fastAllocStart size)
  else none

/-- The top-chunk tail of allocate (the final block of the chunk-level
branch) for rounded request `r`, top chunk of size `topSize`, where
`canGrow` tells whether allocateLowPage(1) inside increaseTopChunk would
succeed.  The source calls increaseTopChunk without checking its result and
carves unconditionally, so the function never returns none; the result is
(size of the returned chunk, size of the new top chunk), both in
chunkSizeType arithmetic. -/
def topPath (topSize r : Nat) (canGrow : Bool) : Option (Nat × Nat) :=
  some (r,
    sub16 (if topSize < physSize16 r then (if canGrow then topSize + pageSize else topSize)
           else topSize)
      (physSize16 r))

end Dl

namespace Slob

/-- The constant 2^32, the modulus of addressType (int) bit arithmetic. -/
def M32 : Nat := 4294967296

/-- GmOsSlobRuntimeNormalSized::magicForType: always 0xcafebabe. -/
def magicForType (_frameType : Nat) : Nat := 3405691582

/-- A slob frame header: magic, frameType and the three counters
(used, top, freeHead are objectNumberType values). -/
structure Frame where
  magic : Nat
  frameType : Nat
  used : Nat
  top : Nat
  freeHead : Nat
deriving DecidableEq

/-- The packed counter word (used | (top << 13) | (freeHead << 26)) as a
32-bit int value. -/
def packState (f : Frame) : Nat := (f.used ||| (f.top <<< 13) ||| (f.freeHead <<< 26)) % M32

/-- GmOsFineChunkSlob::expectedMagic: thisAddress ^ magicForType(frameType)
^ (used | (top << 13) | (freeHead << 26)). -/
def expectedMagic (addr : Nat) (f : Frame) : Nat :=
  ((addr % M32) ^^^ magicForType f.frameType) ^^^ packState f

/-- synchronizeMagic: magic = expectedMagic. -/
def syncMagic (addr : Nat) (f : Frame) : Frame := {f with magic := expectedMagic addr f}

/-- The header initialization of a fresh frame in allocate: frameType set,
used = top = freeHead = 0, then synchronizeMagic. -/
def initFrame (addr frameType : Nat) : Frame :=
  syncMagic addr ⟨0, frameType, 0, 0, 0⟩

/-- allocateFromFrame with capacity numObjects = n: pop freeHead when
non-zero (the next free index `nextSlob` is read from the object slot in
memory and is passed in here), else bump top unless the frame is full;
++used and synchronizeMagic on both mutating paths.  Returns the slot index
handed out and the new frame. -/
def allocateFromFrame (n addr nextSlob : Nat) (f : Frame) : Option (Nat × Frame) :=
  if f.freeHead = 0 then
    if f.used = n then none
    else some (f.top, syncMagic addr {f with top := f.top + 1, used := f.used + 1})
  else
    some (f.freeHead - 1, syncMagic addr {f with freeHead := nextSlob, used := f.used + 1})

/-- deallocateToFrame with capacity n for the object at slot `idx`: reject
an out-of-range index or an unused frame, else freeHead = idx + 1, --used,
synchronizeMagic. -/
def deallocateToFrame (n addr idx : Nat) (f : Frame) : Option Frame :=
  if n ≤ idx then none
  else if f.used = 0 then none
  else some (syncMagic addr {f with freeHead := idx + 1, used := f.used - 1})

/-- The frame after allocateFromFrame completes (unchanged when the
allocation returns null). -/
def afterAllocate (n addr nextSlob : Nat) (f : Frame) : Frame :=
  match allocateFromFrame n addr nextSlob f with
  | some r => r.2
  | none => f

/-- The frame after deallocateToFrame completes (unchanged when the
deallocation is rejected). -/
def afterDeallocate (n addr idx : Nat) (f : Frame) : Frame :=
  match deallocateToFrame n addr idx f with
  | some f1 => f1
  | none => f

end Slob

namespace Gba

/-- objectNumberTypeSize = sizeof(objectNumberType) = sizeof(unsigned short). -/
def objectNumberTypeSize : Nat := 2

/-- sizeof(__gba_size_t) = sizeof(unsigned int); this is what
sizeof(objectNumberTypeSize) evaluates to, since objectNumberTypeSize is
itself a constant of type __gba_size_t. -/
def sizeofGbaSizeT : Nat := 4

/-- The acceptance guard of __gba_slobinit: reject a null region, an
uninitialized page allocator, or chunkSize < sizeof(objectNumberTypeSize),
the last comparing against the size of the type of the constant (4 bytes), not
against the value 2 of the constant. -/
def slobinitOk (regionNull pageInited : Bool) (chunkSize : Nat) : Bool :=
  if regionNull then false
  else if !pageInited then false
  else if chunkSize < sizeofGbaSizeT then false
  else true

/-- The object size stored into the slob runtime info by __gba_slobinit:
(chunkSize | (objectNumberTypeSize - 1)) ^ (objectNumberTypeSize - 1). -/
def storedObjectSize (chunkSize : Nat) : Nat :=
  (chunkSize ||| (objectNumberTypeSize - 1)) ^^^ (objectNumberTypeSize - 1)

/-- GmOsSlobRuntimeNormalSized::offsetForObject: slot k sits at
slobs + k * objectSize. -/
def offsetForObject (base objectSize k : Nat) : Nat := base + k * objectSize

/-- Model of __gba_pageinit acting on the cached instance pointer: when the
allocator is already initialized it returns TRUE at once without touching
the instance; otherwise it constructs a fresh GmOsPageAllocatorBuddy in the
storage and returns TRUE. -/
def pageInit (st : Option Buddy.BuddyState) : Bool × Option Buddy.BuddyState :=
  match st with
  | some pa => (true, some pa)
  | none => (true, some Buddy.initState)

end Gba

/-- A buddy state with one free order-1 block at pfn 0 (its bitmap bit is at
position bitmapOrderOffset[1] + 0 = 128) and hpbrk = 2: allocated by
allocateHighPage(1) from a fresh allocator then freed by freeHighPage with
hpbrk already advanced past it by another allocation. -/
def c1State : Buddy.BuddyState := ⟨0, 2, [[], [0], [], [], [], []], 1 <<< 128⟩

/-- The state after allocHigh(0), allocHigh(0), freeHigh(first, 0),
freeHigh(second, 0) on a fresh allocator with totalPageFrame() = 128. -/
def c5Run : Buddy.BuddyState :=
  Buddy.freeHighPage
    (Buddy.allocateHighPage 128 0 (Buddy.allocateHighPage 128 0 Buddy.initState).2).1 0
    (Buddy.freeHighPage (Buddy.allocateHighPage 128 0 Buddy.initState).1 0
      (Buddy.allocateHighPage 128 0 (Buddy.allocateHighPage 128 0 Buddy.initState).2).2)

/-- Every decidable fact below about the models is settled by evaluation;
the helper lemmas here carry the only general arithmetic. -/
theorem lor_one_xor_one (c : Nat) : (c ||| 1) ^^^ 1 = c - c % 2 := by
  have h1 : ∀ j : Nat, Nat.testBit 1 (j + 1) = false := by
    intro j; rw [Nat.testBit_succ]; simp
  have key : (c ||| 1) ^^^ 1 = (c >>> 1) <<< 1 := by
    apply Nat.eq_of_testBit_eq
    intro i
    cases i with
    | zero =>
      have h0 : (c ||| 1).testBit 0 = true := by simp [Nat.testBit_or]
      rw [Nat.testBit_xor, h0, Nat.testBit_shiftLeft]
      simp
    | succ j =>
      rw [Nat.testBit_xor, Nat.testBit_or, Nat.testBit_shiftLeft, Nat.testBit_shiftRight]
      rw [h1 j, Nat.testBit_succ]
      simp [Nat.add_comm 1 j, Nat.testBit_succ]
  rw [key, Nat.shiftLeft_eq, Nat.shiftRight_eq_div_pow]
  omega

theorem bitmapSet_lpbrk (pfn order : Nat) (s : Buddy.BuddyState) :
    (Buddy.bitmapSet pfn order s).lpbrk = s.lpbrk := rfl

theorem bitmapSet_hpbrk (pfn order : Nat) (s : Buddy.BuddyState) :
    (Buddy.bitmapSet pfn order s).hpbrk = s.hpbrk := rfl

theorem bitmapClear_lpbrk (pfn order : Nat) (s : Buddy.BuddyState) :
    (Buddy.bitmapClear pfn order s).lpbrk = s.lpbrk := rfl

theorem bitmapClear_hpbrk (pfn order : Nat) (s : Buddy.BuddyState) :
    (Buddy.bitmapClear pfn order s).hpbrk = s.hpbrk := rfl

theorem linkPage_lpbrk (order pfn : Nat) (s : Buddy.BuddyState) :
    (Buddy.linkPage order pfn s).lpbrk = s.lpbrk := rfl

theorem linkPage_hpbrk (order pfn : Nat) (s : Buddy.BuddyState) :
    (Buddy.linkPage order pfn s).hpbrk = s.hpbrk := rfl

theorem unlinkPage_lpbrk (order pfn : Nat) (s : Buddy.BuddyState) :
    (Buddy.unlinkPage order pfn s).lpbrk = s.lpbrk := rfl

theorem unlinkPage_hpbrk (order pfn : Nat) (s : Buddy.BuddyState) :
    (Buddy.unlinkPage order pfn s).hpbrk = s.hpbrk := rfl

theorem setHpbrk_lpbrk (v : Nat) (s : Buddy.BuddyState) :
    (Buddy.setHpbrk v s).lpbrk = s.lpbrk := rfl

theorem setHpbrk_hpbrk (v : Nat) (s : Buddy.BuddyState) :
    (Buddy.setHpbrk v s).hpbrk = v := rfl

theorem mergeLoop_brks (fuel : Nat) : ∀ order pfn s,
    ((Buddy.mergeLoop fuel order pfn s).2.2).lpbrk = s.lpbrk ∧
    ((Buddy.mergeLoop fuel order pfn s).2.2).hpbrk = s.hpbrk := by
  induction fuel with
  | zero => intro order pfn s; exact ⟨rfl, rfl⟩
  | succ n ih =>
    intro order pfn s
    unfold Buddy.mergeLoop
    split
    · split
      · exact ⟨(ih _ _ _).1, (ih _ _ _).2⟩
      · exact ⟨rfl, rfl⟩
    · exact ⟨rfl, rfl⟩

theorem shrinkScan_le (s : Buddy.BuddyState) : ∀ fuel o order pfn,
    Buddy.shrinkScan s o fuel = some (order, pfn) → pfn ≤ s.hpbrk := by
  intro fuel
  induction fuel with
  | zero => intro o order pfn h; exact absurd h (by simp [Buddy.shrinkScan])
  | succ n ih =>
    intro o order pfn h
    unfold Buddy.shrinkScan at h
    split at h
    · split at h
      · injection h with h1
        rw [Prod.mk.injEq] at h1
        rw [← h1.2]
        exact Nat.sub_le _ _
      · exact ih _ _ _ h
    · exact absurd h (by simp)

theorem shrinkStep_brks (s s1 : Buddy.BuddyState) (h : Buddy.shrinkStep s = some s1) :
    s1.lpbrk = s.lpbrk ∧ s1.hpbrk ≤ s.hpbrk := by
  unfold Buddy.shrinkStep at h
  split at h
  · exact absurd h (by simp)
  · rename_i order pfn heq
    injection h with h1
    constructor
    · rw [← h1, setHpbrk_lpbrk, bitmapClear_lpbrk, unlinkPage_lpbrk]
    · rw [← h1, setHpbrk_hpbrk]
      exact shrinkScan_le s _ _ _ _ heq

theorem shrinkAux_brks (fuel : Nat) : ∀ s,
    (Buddy.shrinkAux fuel s).lpbrk = s.lpbrk ∧ (Buddy.shrinkAux fuel s).hpbrk ≤ s.hpbrk := by
  induction fuel with
  | zero => intro s; exact ⟨rfl, Nat.le_refl _⟩
  | succ n ih =>
    intro s
    unfold Buddy.shrinkAux
    cases hstep : Buddy.shrinkStep s with
    | none => exact ⟨rfl, Nat.le_refl _⟩
    | some s1 =>
      have hb := shrinkStep_brks s s1 hstep
      exact ⟨(ih s1).1.trans hb.1, (ih s1).2.trans hb.2⟩

theorem shrinkHighPage_brks (s : Buddy.BuddyState) :
    (Buddy.shrinkHighPage s).lpbrk = s.lpbrk ∧ (Buddy.shrinkHighPage s).hpbrk ≤ s.hpbrk :=
  shrinkAux_brks s.hpbrk s

theorem splitDownLoop_lpbrk (fuel : Nat) : ∀ a order pfnVictim s,
    (Buddy.splitDownLoop fuel a order pfnVictim s).lpbrk = s.lpbrk := by
  induction fuel with
  | zero => intro a order pfnVictim s; rfl
  | succ n ih =>
    intro a order pfnVictim s
    unfold Buddy.splitDownLoop
    split
    · rfl
    · exact ih _ _ _ _

theorem splitDownLoop_hpbrk (fuel : Nat) : ∀ a order pfnVictim s,
    (Buddy.splitDownLoop fuel a order pfnVictim s).hpbrk = s.hpbrk := by
  induction fuel with
  | zero => intro a order pfnVictim s; rfl
  | succ n ih =>
    intro a order pfnVictim s
    unfold Buddy.splitDownLoop
    split
    · rfl
    · exact ih _ _ _ _

theorem fillGapLoop_lpbrk (fuel : Nat) : ∀ orderSplit pfnSplit hpbrk0 s,
    (Buddy.fillGapLoop fuel orderSplit pfnSplit hpbrk0 s).lpbrk = s.lpbrk := by
  induction fuel with
  | zero => intro a b c s; rfl
  | succ n ih =>
    intro a b c s
    unfold Buddy.fillGapLoop
    split
    · split
      · exact ih _ _ _ _
      · exact ih _ _ _ _
    · rfl

theorem fillGapLoop_hpbrk (fuel : Nat) : ∀ orderSplit pfnSplit hpbrk0 s,
    (Buddy.fillGapLoop fuel orderSplit pfnSplit hpbrk0 s).hpbrk = s.hpbrk := by
  induction fuel with
  | zero => intro a b c s; rfl
  | succ n ih =>
    intro a b c s
    unfold Buddy.fillGapLoop
    split
    · split
      · exact ih _ _ _ _
      · exact ih _ _ _ _
    · rfl

theorem allocateHighPage_inv (N order : Nat) (s : Buddy.BuddyState) (h : Buddy.brkInv N s) :
    Buddy.brkInv N (Buddy.allocateHighPage N order s).2 := by
  unfold Buddy.allocateHighPage
  split
  · exact h
  · split
    · exact h
    · split
      · split
        · exact h
        · show Buddy.brkInv N (Buddy.splitDownLoop _ _ _ _ _)
          unfold Buddy.brkInv
          rw [splitDownLoop_lpbrk, splitDownLoop_hpbrk, unlinkPage_lpbrk, unlinkPage_hpbrk,
            bitmapClear_lpbrk, bitmapClear_hpbrk]
          exact h
      · split
        · exact h
        · rename_i hle
          unfold Buddy.brkInv
          rw [setHpbrk_lpbrk, setHpbrk_hpbrk, fillGapLoop_lpbrk]
          omega

theorem freeHighPage_inv (N order : Nat) (page : Option Nat) (s : Buddy.BuddyState)
    (h : Buddy.brkInv N s) : Buddy.brkInv N (Buddy.freeHighPage page order s) := by
  unfold Buddy.freeHighPage
  cases page with
  | none => exact h
  | some pfn0 =>
    have hm := mergeLoop_brks (Buddy.maxPageOrder - 1) order pfn0 s
    rcases hml : Buddy.mergeLoop (Buddy.maxPageOrder - 1) order pfn0 s with ⟨o1, p1, s1⟩
    rw [hml] at hm
    simp only at hm
    show Buddy.brkInv N (Buddy.freeHighMerged (Buddy.mergeLoop (Buddy.maxPageOrder - 1) order pfn0 s))
    rw [hml]
    show Buddy.brkInv N
      (if p1 + (1 <<< o1) = s1.hpbrk then Buddy.shrinkHighPage (Buddy.setHpbrk p1 s1)
       else Buddy.linkPage o1 p1 (Buddy.bitmapSet p1 o1 s1))
    split
    · rename_i htop
      have hs := shrinkHighPage_brks (Buddy.setHpbrk p1 s1)
      unfold Buddy.brkInv
      rw [hs.1, setHpbrk_lpbrk, hm.1]
      have h3 := hs.2
      rw [setHpbrk_hpbrk] at h3
      have hp : p1 ≤ s1.hpbrk := Nat.le.intro htop
      unfold Buddy.brkInv at h
      obtain ⟨hm1, hm2⟩ := hm
      omega
    · unfold Buddy.brkInv
      rw [linkPage_lpbrk, linkPage_hpbrk, bitmapSet_lpbrk, bitmapSet_hpbrk, hm.1, hm.2]
      exact h

/-- C1: with freeList[0] empty but freeList[1] holding the order-1 block at
pfn 0 (bitmap bit 128 set), hpbrk = 2, lpbrk = 0 and totalPageFrame() = 4,
allocateHighPage(0) is claimed to split that block, return its lower half
(pfn 0), push pfn 1 on the order-0 list and keep hpbrk = 2.  The scan loop
instead tests freePageList[order], which is empty, so the scan always runs
to maxPageOrder: the code leaves the order-1 block untouched, grows hpbrk
from 2 to 3 and returns the fresh page at pfn 2. -/
theorem c1_allocate_high_ignores_higher_order :
    Buddy.allocateHighPage 4 0 c1State = (some 2, {c1State with hpbrk := 3}) ∧
    (Buddy.allocateHighPage 4 0 c1State).2.hpbrk = 3 ∧
    (Buddy.allocateHighPage 4 0 c1State).2.freeLists.getD 1 [] = [0] ∧
    Buddy.scanAvailable c1State 0 Buddy.maxPageOrder 1 = Buddy.maxPageOrder := by decide

/-- C2: splitUseChunk on a chunk of size 100 with rounded request 28 has
availableSize = 72, which reaches the fast-bin branch
(availableSize >= physicalSize(64) = 68); there the source computes
remainedSize = 0 - 4 = 65532 in unsigned short, so the split-off chunk
claims size 65532: its true physical size 65536 exceeds availableSize = 72
(it wraps to 0 in chunkSizeType, leaving the chunk size unchanged at 100),
so the remainder does not lie within the original extent of the chunk. -/
theorem c2_split_remainder_underflow :
    Dl.splitUseChunk 100 28 = some (65532, 100) ∧
    Dl.floorAlign4 (Dl.sub16 100 28) = 72 ∧
    Dl.remainedSizeOf 72 = 65532 ∧
    ¬(65532 + Dl.payloadOffset ≤ 72) ∧
    Dl.physSize16 65532 = 0 := by decide

/-- C3: a freed chunk of size 12 is arranged into fast bin 3; a request of
13 bytes rounds to 16, yet the allocation start-order loop stops at the
first order whose block size is at most the request, so the scan starts at
bin 3 and pops the size-12 chunk: malloc hands out a chunk smaller than the
rounded request. -/
theorem c3_fastbin_returns_undersized_chunk :
    Dl.roundRequest 13 = 16 ∧
    Dl.arrangeFastOrder 12 = 3 ∧
    Dl.fastAllocStart 16 = 3 ∧
    Dl.fastPath [[], [], [], [12], [], []] 16 = some 12 ∧
    12 < 16 := by decide

/-- C4: with a top chunk of size 8, a rounded request of 100 bytes
(physicalSize 104 > 8) and allocateLowPage(1) failing, the top-chunk tail
of allocate still returns a non-null chunk: the failure of increaseTopChunk is
ignored and remainedSize = 8 - 104 underflows to 65440 in unsigned short,
instead of the null return the claim requires. -/
theorem c4_top_growth_failure_not_null :
    Dl.topPath 8 100 false = some (100, 65440) ∧
    Dl.topPath 8 100 false ≠ none ∧
    8 < Dl.physSize16 100 := by decide

/-- C5: from the freshly initialized buddy allocator with
totalPageFrame() = 128, the sequence allocateHighPage(0),
allocateHighPage(0), freeHighPage(first, 0), freeHighPage(second, 0)
returns hpbrk to 0, leaves every free list empty and every bitmap bit zero
(the final state equals the initial state); the two allocations return the
pages at pfn 0 and pfn 1. -/
theorem c5_round_trip :
    c5Run = Buddy.initState ∧
    (Buddy.allocateHighPage 128 0 Buddy.initState).1 = some 0 ∧
    (Buddy.allocateHighPage 128 0 (Buddy.allocateHighPage 128 0 Buddy.initState).2).1
      = some 1 := by decide

/-- C6 counterexample: at lpbrk = 10, hpbrk = 0 with totalPageFrame() = 128,
allocateLowPage(250) is claimed to return false without mutation (since
10 + 250 + 0 > 128), but the source truncates newLpbrk = 10 + 250 to the
pfnType value 4, passes the collision check and succeeds with lpbrk = 4. -/
theorem c6_alloc_low_wraps :
    Buddy.allocateLowPage 128 250 ⟨10, 0, [[], [], [], [], [], []], 0⟩
      = (true, ⟨4, 0, [[], [], [], [], [], []], 0⟩) ∧
    128 < 10 + 250 + 0 := by decide

/-- C6 (amended): lpbrk + hpbrk <= totalPageFrame() holds initially and is
preserved by allocateLowPage, freeLowPage, allocateHighPage, freeHighPage
and shrinkHighPage; allocateLowPage(pages) computes the new break as
(lpbrk + pages) mod 256 (pfnType is an unsigned char) and sets lpbrk to it
exactly when (lpbrk + pages) mod 256 + hpbrk <= totalPageFrame(), otherwise
returning false without mutation; in particular, whenever lpbrk + pages
fits in the pfnType (is at most 255), it increases lpbrk by pages exactly
when lpbrk + pages + hpbrk <= totalPageFrame() and otherwise returns false
leaving lpbrk and hpbrk unchanged. -/
theorem c6_break_invariant (N pages numFree order : Nat) (page : Option Nat)
    (s : Buddy.BuddyState) (h : Buddy.brkInv N s) :
    Buddy.brkInv N Buddy.initState ∧
    Buddy.brkInv N (Buddy.allocateLowPage N pages s).2 ∧
    Buddy.brkInv N (Buddy.freeLowPage numFree s) ∧
    Buddy.brkInv N (Buddy.allocateHighPage N order s).2 ∧
    Buddy.brkInv N (Buddy.freeHighPage page order s) ∧
    Buddy.brkInv N (Buddy.shrinkHighPage s) ∧
    ((s.lpbrk + pages) % 256 + s.hpbrk ≤ N →
      Buddy.allocateLowPage N pages s
        = (true, {s with lpbrk := (s.lpbrk + pages) % 256})) ∧
    (N < (s.lpbrk + pages) % 256 + s.hpbrk →
      Buddy.allocateLowPage N pages s = (false, s)) ∧
    (s.lpbrk + pages ≤ 255 → s.lpbrk + pages + s.hpbrk ≤ N →
      Buddy.allocateLowPage N pages s = (true, {s with lpbrk := s.lpbrk + pages})) ∧
    (s.lpbrk + pages ≤ 255 → N < s.lpbrk + pages + s.hpbrk →
      Buddy.allocateLowPage N pages s = (false, s)) := by
  unfold Buddy.brkInv at h
  refine ⟨?_, ?_, ?_, allocateHighPage_inv N order s h,
    freeHighPage_inv N order page s h, ?_, ?_, ?_, ?_, ?_⟩
  · show (0 : Nat) + 0 ≤ N
    omega
  · unfold Buddy.allocateLowPage
    split
    · exact h
    · show (s.lpbrk + pages) % 256 + s.hpbrk ≤ N
      omega
  · show s.lpbrk - numFree + s.hpbrk ≤ N
    omega
  · have hs := shrinkHighPage_brks s
    unfold Buddy.brkInv
    rw [hs.1]
    have h2 := hs.2
    omega
  · intro hle
    unfold Buddy.allocateLowPage
    rw [if_neg (by omega)]
  · intro hlt
    unfold Buddy.allocateLowPage
    rw [if_pos hlt]
  · intro hfit hle
    unfold Buddy.allocateLowPage
    have hmod : (s.lpbrk + pages) % 256 = s.lpbrk + pages := Nat.mod_eq_of_lt (by omega)
    rw [if_neg (by omega), hmod]
  · intro hfit hlt
    unfold Buddy.allocateLowPage
    rw [if_pos (by omega)]

/-- Witness for C6 at N = 4, pages = 1, a unit free, order 0, the page at
pfn 0 and the fresh state. -/
theorem c6_break_invariant_witness :
    Buddy.brkInv 4 (Buddy.allocateLowPage 4 1 Buddy.initState).2 ∧
    Buddy.allocateLowPage 4 1 Buddy.initState
      = (true, {Buddy.initState with lpbrk := Buddy.initState.lpbrk + 1}) :=
  ⟨(c6_break_invariant 4 1 1 0 (some 0) Buddy.initState
      (by simp [Buddy.brkInv, Buddy.initState])).2.1,
   (c6_break_invariant 4 1 1 0 (some 0) Buddy.initState
      (by simp [Buddy.brkInv, Buddy.initState])).2.2.2.2.2.2.2.2.1
        (by decide) (by decide)⟩

/-- C7: a freshly initialized frame satisfies
magic = frameAddress XOR magicForType(frameType) XOR
(used | (top << 13) | (freeHead << 26)), and the equality is preserved by
allocateFromFrame and deallocateToFrame for any capacity, stored next-free
index and slot index: each mutating path resynchronizes the magic, and the
rejecting paths leave the frame unchanged. -/
theorem c7_slab_magic_resync (n addr nextSlob idx t : Nat) (f : Slob.Frame)
    (h : f.magic = Slob.expectedMagic addr f) :
    (Slob.initFrame addr t).magic = Slob.expectedMagic addr (Slob.initFrame addr t) ∧
    (Slob.afterAllocate n addr nextSlob f).magic
      = Slob.expectedMagic addr (Slob.afterAllocate n addr nextSlob f) ∧
    (Slob.afterDeallocate n addr idx f).magic
      = Slob.expectedMagic addr (Slob.afterDeallocate n addr idx f) := by
  refine ⟨rfl, ?_, ?_⟩
  · unfold Slob.afterAllocate Slob.allocateFromFrame
    by_cases h0 : f.freeHead = 0
    · by_cases h2 : f.used = n
      · simp only [h0, h2, if_pos, if_true]
        exact h
      · simp only [h0, h2, if_pos, if_false, if_neg]
        rfl
    · simp only [h0, if_neg]
      rfl
  · unfold Slob.afterDeallocate Slob.deallocateToFrame
    by_cases h1 : n ≤ idx
    · simp only [h1, if_pos]
      exact h
    · by_cases h2 : f.used = 0
      · simp only [h1, h2, if_neg, if_pos, if_true]
        exact h
      · simp only [h1, h2, if_neg, if_false]
        rfl

/-- Witness for C7 on a concrete frame at address 0x2001000 of the normal
frame type with capacity 63. -/
theorem c7_slab_magic_resync_witness :
    (Slob.afterAllocate 63 33558528 0 (Slob.initFrame 33558528 3735928559)).magic
      = Slob.expectedMagic 33558528
          (Slob.afterAllocate 63 33558528 0 (Slob.initFrame 33558528 3735928559)) :=
  (c7_slab_magic_resync 63 33558528 0 1 3735928559
    (Slob.initFrame 33558528 3735928559) rfl).2.1

/-- C8: with a non-null region and an initialized page allocator,
__gba_slobinit rejects objectSize = 2 even though 2 is exactly
sizeof(objectNumberType): the guard compares against
sizeof(objectNumberTypeSize) = sizeof(__gba_size_t) = 4 rather than the
stored value objectNumberTypeSize = 2, so the claimed acceptance of every
objectSize >= 2 fails at objectSize = 2 (and 3). -/
theorem c8_slobinit_rejects_valid_size :
    Gba.slobinitOk false true 2 = false ∧
    Gba.slobinitOk false true 3 = false ∧
    Gba.objectNumberTypeSize ≤ 2 ∧
    Gba.slobinitOk false true 4 = true := by decide

/-- C9 counterexample: the second pageInit call does not return a failure
flag; it returns TRUE exactly like the first call. -/
theorem c9_second_pageinit_not_failure :
    ¬((Gba.pageInit (Gba.pageInit none).2).1 = false) := by decide

/-- C9 (amended): pageInit called when the allocator is already initialized
returns TRUE and leaves the cached instance untouched; the first call also
returns TRUE. -/
theorem c9_pageinit_idempotent :
    (Gba.pageInit none).1 = true ∧
    (∀ pa : Buddy.BuddyState, Gba.pageInit (some pa) = (true, some pa)) :=
  ⟨rfl, fun _ => rfl⟩

/-- Witness for C9 on the freshly constructed instance. -/
theorem c9_pageinit_idempotent_witness :
    Gba.pageInit (some Buddy.initState) = (true, some Buddy.initState) :=
  c9_pageinit_idempotent.2 Buddy.initState

/-- C10: for every objectSize accepted by __gba_slobinit, the stored
per-object size is objectSize rounded down to a multiple of 2 =
sizeof(objectNumberType); in particular every odd accepted objectSize is
stored as objectSize - 1, and consecutive objects are laid out
objectSize - 1 bytes apart, less than the requested size. -/
theorem c10_object_size_rounded_down (c : Nat) (h : Gba.slobinitOk false true c = true) :
    Gba.storedObjectSize c = c - c % 2 ∧
    Gba.storedObjectSize c ≤ c ∧
    2 ∣ Gba.storedObjectSize c ∧
    (c % 2 = 1 →
      Gba.storedObjectSize c = c - 1 ∧
      Gba.storedObjectSize c < c ∧
      ∀ base k, Gba.offsetForObject base (Gba.storedObjectSize c) (k + 1)
        - Gba.offsetForObject base (Gba.storedObjectSize c) k = c - 1) := by
  have hs : Gba.storedObjectSize c = c - c % 2 := lor_one_xor_one c
  have hc : 4 ≤ c := by
    by_contra hlt
    have hx : c < 4 := by omega
    simp [Gba.slobinitOk, Gba.sizeofGbaSizeT, hx] at h
  refine ⟨hs, by omega, ⟨c / 2, by omega⟩, ?_⟩
  intro hodd
  refine ⟨by omega, by omega, ?_⟩
  intro base k
  unfold Gba.offsetForObject
  have hx : Gba.storedObjectSize c = c - 1 := by omega
  rw [hx]
  ring_nf
  omega

/-- Witness for C10 at objectSize = 5. -/
theorem c10_object_size_rounded_down_witness :
    Gba.slobinitOk false true 5 = true ∧ Gba.storedObjectSize 5 = 5 - 5 % 2 :=
  ⟨by decide, (c10_object_size_rounded_down 5 (by decide)).1⟩
